import Mathlib

/-!
Shallow embedding of the CSVTU-GPT repository's matcher
(`Codes/Streamlit_app_local.py`) and crawler (`Codes/Website-Scraping.py`),
with theorems settling the specification claims about them.

Python strings are modelled as Lean `String`; `str.lower` is modelled on the
ASCII range (the only range the data and claims exercise); pandas cells are a
string or a missing value (`NaN`); the network is an oracle function passed
explicitly; the crawler's global mutable lists become an explicit state record,
extended with a ghost `fetchLog` that records every `requests.get` call so that
"never fetched" properties can be stated.
-/

/-- Boolean test that the first char list is an initial segment of the second. -/
def leadsWith : List Char → List Char → Bool
  | [], _ => true
  | _ :: _, [] => false
  | a :: as, b :: bs => a == b && leadsWith as bs

/-- Python substring containment on char lists: some tail of the haystack starts with the pattern. -/
def hasSubList (pat : List Char) : List Char → Bool
  | [] => leadsWith pat []
  | c :: rest => leadsWith pat (c :: rest) || hasSubList pat rest

/-- Python `pat in s` substring test. -/
def hasSub (pat s : String) : Bool := hasSubList pat.toList s.toList

/-- Python `str.lower` on one character (ASCII model: shift an upper-case letter down by 32). -/
def pyToLower (c : Char) : Char :=
  if 65 ≤ c.toNat ∧ c.toNat ≤ 90 then Char.ofNat (c.toNat + 32) else c

/-- Python `str.lower` (ASCII model). -/
def pyLower (s : String) : String := String.mk (s.toList.map pyToLower)

/-- Whitespace recognised by Python `str.split()` (ASCII model). -/
def isPySpace (c : Char) : Bool :=
  c.toNat = 32 || c.toNat = 9 || c.toNat = 10 || c.toNat = 13 || c.toNat = 11 || c.toNat = 12

/-- Worker for `str.split()`: split on whitespace runs, dropping empty pieces;
`acc` holds the chars of the current word in reverse. -/
def splitWordsAux : List Char → List Char → List (List Char)
  | [], acc => if acc.isEmpty then [] else [acc.reverse]
  | c :: cs, acc =>
    if isPySpace c then
      if acc.isEmpty then splitWordsAux cs [] else acc.reverse :: splitWordsAux cs []
    else splitWordsAux cs (c :: acc)

/-- Python `str.split()` with no separator argument. -/
def pySplitWords (s : String) : List String := (splitWordsAux s.toList []).map String.mk

/-- Python `set(s.lower().split())`, the word set used throughout the matcher. -/
def wordSet (s : String) : Finset String := (pySplitWords (pyLower s)).toFinset

/-- A pandas cell of a `Question` or `Answer` column: a string, or a missing value (`NaN`). -/
inductive Cell
  | str (s : String)
  | na
deriving DecidableEq

/-- Python `str()` coercion, as applied by `astype(str)`: `NaN` prints as `"nan"`. -/
def Cell.toStr : Cell → String
  | .str s => s
  | .na => "nan"

/-- Whether a cell already holds a string value. -/
def Cell.isString : Cell → Bool
  | .str _ => true
  | .na => false

/-- One dataframe row restricted to the two columns the matcher reads. -/
structure Row where
  question : Cell
  answer  : Cell
deriving DecidableEq

/-- A loaded dataframe: whether both `Question` and `Answer` columns are present, and its rows. -/
structure Table where
  hasQA : Bool
  rows : List Row
deriving DecidableEq

/-- The `data` dictionary: file names paired with their dataframes, in insertion order. -/
abbrev DataSet := List (String × Table)

/-- A recorded match: `(file_name, question, score, answer)`. -/
abbrev MatchT := String × Cell × Nat × Cell

/-- Word set of a cell: `set(value.lower().split()) if pd.notna(value) else set()`. -/
def cellWordSet : Cell → Finset String
  | .str s => wordSet s
  | .na => ∅

/-- Inner row loop of `find_common_word_matches`: full-subset rows score 100,
overlapping rows score 70, others contribute nothing. -/
def rowCommonMatches (uw : Finset String) (fileName : String) : List Row → List MatchT
  | [] => []
  | r :: rs =>
    let qw := cellWordSet r.question
    let aw := cellWordSet r.answer
    if uw ⊆ qw ∪ aw then
      (fileName, r.question, 100, r.answer) :: rowCommonMatches uw fileName rs
    else if (uw ∩ (qw ∪ aw)).Nonempty then
      (fileName, r.question, 70, r.answer) :: rowCommonMatches uw fileName rs
    else rowCommonMatches uw fileName rs

/-- Embedding of `find_common_word_matches(user_input, data)`. -/
def find_common_word_matches (user_input : String) (data : DataSet) : List MatchT :=
  let uw := wordSet user_input
  data.foldl (fun ms p => if p.2.hasQA then ms ++ rowCommonMatches uw p.1 p.2.rows else ms) []

/-- Effect of `df["Question"] = df["Question"].astype(str)` (and likewise `Answer`) on one row. -/
def coerceRow (r : Row) : Row := ⟨.str r.question.toStr, .str r.answer.toStr⟩

/-- The in-place string coercion `get_best_matches` applies to a searched dataframe. -/
def coerceTable (t : Table) : Table := ⟨t.hasQA, t.rows.map coerceRow⟩

/-- Embedding of `df[df["Question"] == question]["Answer"].values[0]`: the answer of the
first row whose question cell equals the given one. -/
def firstAnswerFor (rows : List Row) (q : Cell) : Cell :=
  match rows.find? (fun r => r.question == q) with
  | some r => r.answer
  | none => Cell.na

/-- Embedding of `get_best_matches(user_input, data, top_n)`.  The fuzzy scorer
(`fuzzywuzzy.process.extractOne`, an external library) is passed as an oracle.
Because the source mutates each searched dataframe via `astype(str)`, the
function returns both the match list and the data after that mutation.
`gbmStep` is the body of its outer `for file_name, df in data.items()` loop:
coerce a searched dataframe, then append one fuzzy match per question. -/
def gbmStep (scorer : String → String → Nat) (user_input : String)
    (acc : List MatchT × DataSet) (p : String × Table) : List MatchT × DataSet :=
  if p.2.hasQA then
    let t := coerceTable p.2
    let ms := t.rows.foldl
      (fun ms r =>
        ms ++ [(p.1, r.question, scorer user_input r.question.toStr,
                firstAnswerFor t.rows r.question)]) acc.1
    (ms, acc.2 ++ [(p.1, t)])
  else (acc.1, acc.2 ++ [(p.1, p.2)])

def get_best_matches (scorer : String → String → Nat) (user_input : String)
    (data : DataSet) (top_n : Nat) : List MatchT × DataSet :=
  let res := data.foldl (gbmStep scorer user_input) ([], [])
  ((res.1.mergeSort (fun a b => decide (b.2.2.1 ≤ a.2.2.1))).take top_n, res.2)

/-- The static `Semester_subject_names` dictionary. -/
def Semester_subject_names : List (String × List String) :=
  [("Semester_1",
    ["Engineering Mathematics I", "Environmental Science",
     "Foundations of Electronics Engineering", "Fundamentals of Computational Biology",
     "Language and Writing Skills", "Learning Programming Concepts With C",
     "Professional Ethics and Life Skills"]),
   ("Semester_2",
    ["Data Structure Using C", "Digital Logic and Design", "Engineering Mathematics II",
     "Entrepreneurship", "Object-Oriented Programming", "Python for Data Science"]),
   ("Semester_3",
    ["Analysis and Design of Algorithm", "Computer Organization and Architecture",
     "Database Management System", "Discrete Structure", "Independent Project",
     "Probability and Statistics"]),
   ("Semester_4",
    ["Artificial Intelligence Principles and Applications", "Computer Network",
     "Data Visualization", "Operating System", "R for Data Science",
     "Theory of Computation"]),
   ("Semester_5",
    ["Computational Complexity", "Cryptography and Network Security",
     "Intelligent Data Analysis", "Natural Language Processing",
     "Pattern Recognition and Machine Learning", "Vocational Training"]),
   ("Semester_7",
    ["Software Engineering", "Big Data Analytics", "Image Processing", "Data Wrangling"])]

/-- Syllabus file name derived from a semester key. -/
def semFileName (sem : String) : String :=
  "Preprocessed_" ++ sem ++ "_Syllabus_Question_Answer.csv"

/-- Syllabus file name derived from a semester number. -/
def semNumFileName (i : Nat) : String :=
  "Preprocessed_Semester_" ++ toString i ++ "_Syllabus_Question_Answer.csv"

/-- Embedding of `check_for_syllabus(user_input)`. -/
def check_for_syllabus (user_input : String) : List String :=
  let user_words := wordSet user_input
  let syllabus_files := Semester_subject_names.foldl
    (fun acc p =>
      if p.2.any (fun subj => decide (subj ∈ user_words)) then acc ++ [semFileName p.1]
      else acc) []
  if "syllabus" ∈ user_words then
    if syllabus_files.length = 1 then
      match syllabus_files with
      | x :: _ => [x]
      | [] => []
    else
      (List.range' 1 7).filterMap
        (fun i => if semNumFileName i ∈ syllabus_files then some (semNumFileName i) else none)
  else syllabus_files

/-- The distinct outcomes `display_response` can render. -/
inductive Response
  | syllabus (files : List String)
  | exact (ms : List MatchT)
  | fuzzy (ms : List MatchT)
  | fuzzyUniversity (ms : List MatchT)
  | noAnswer
  | silent
  | blank
deriving DecidableEq

/-- Embedding of `display_response(user_input, data, university_file_path)`.  The
university CSV read from disk is passed as the `university_data` table. -/
def display_response (scorer : String → String → Nat) (user_input : String)
    (data : DataSet) (university_file_path : String) (university_data : Table) : Response :=
  let syllabus_files := check_for_syllabus user_input
  if syllabus_files ≠ [] then .syllabus syllabus_files
  else if user_input ≠ "" then
    let filtered_data := data.filter (fun p => p.1 ≠ university_file_path)
    let common_word_matches := find_common_word_matches user_input filtered_data
    if common_word_matches ≠ [] then .exact (common_word_matches.take 3)
    else
      let fuzzyMs := (get_best_matches scorer user_input filtered_data 3).1
      if fuzzyMs ≠ [] then .fuzzy fuzzyMs
      else if university_data.hasQA then
        let uni := coerceTable university_data
        let ms2 := (get_best_matches scorer user_input [("University", uni)] 3).1
        if ms2 ≠ [] then .fuzzyUniversity ms2 else .silent
      else .noAnswer
  else .blank

/-- Network oracle answer for a PDF fetch: the `content-type` header if present,
whether PyPDF2 parses the body without an exception, and the per-page texts. -/
structure PdfResponse where
  contentTypeHeader : Option String
  pdfOk : Bool
  pages : List String
deriving DecidableEq

/-- Network oracle answer for a page fetch: a timeout, another request exception,
or a parsed page with its visible text and its anchors' `href` values. -/
inductive PageFetch
  | timeout
  | reqError
  | page (text : String) (links : List (Option String))
deriving DecidableEq

/-- The crawler's global mutable state: the three URL lists, the append-only corpus
file (as its list of appended chunks), and a ghost log of every `requests.get` call. -/
structure CrawlState where
  visited_links : List String
  pdf_links : List String
  success_links : List String
  corpus : List String
  fetchLog : List String
deriving DecidableEq

/-- Concatenation of the extracted page texts of a PDF, in page order. -/
def joinPages (pages : List String) : String := pages.foldl (fun t p => t ++ p) ""

/-- Embedding of `extract_text_from_pdf(url)`.  `pnet url = none` models
`requests.get` raising; a missing `content-type` header models the `KeyError`;
`pdfOk = false` models PyPDF2 raising.  All three land in the bare `except`. -/
def extract_text_from_pdf (pnet : String → Option PdfResponse) (url : String)
    (s : CrawlState) : CrawlState :=
  if url ∈ s.visited_links then s
  else
    let s1 := { s with fetchLog := s.fetchLog ++ [url] }
    match pnet url with
    | none => { s1 with visited_links := s1.visited_links ++ [url] }
    | some resp =>
      match resp.contentTypeHeader with
      | none => { s1 with visited_links := s1.visited_links ++ [url] }
      | some ct =>
        if hasSub "application/pdf" ct then
          if resp.pdfOk then
            { s1 with corpus := s1.corpus ++ [joinPages resp.pages],
                      visited_links := s1.visited_links ++ [url],
                      pdf_links := s1.pdf_links ++ [url] }
          else { s1 with visited_links := s1.visited_links ++ [url] }
        else s1

/-- Python `href.lower().endswith('.pdf')`. -/
def endsWithPdf (href : String) : Bool :=
  leadsWith ".pdf".toList.reverse (pyLower href).toList.reverse

/-- Embedding of `web_scraping_text(url)`.  The Python recursion has no depth
bound; the `fuel` parameter is the embedding's termination artifact and every
theorem below holds for all fuel values. -/
def web_scraping_text (net : String → PageFetch) (pnet : String → Option PdfResponse) :
    Nat → String → CrawlState → CrawlState
  | 0, _, s => s
  | fuel + 1, url, s =>
    if url ∉ s.visited_links ∧ hasSub "csvtu.ac.in" url then
      let s1 := { s with fetchLog := s.fetchLog ++ [url] }
      match net url with
      | .timeout => { s1 with visited_links := s1.visited_links ++ [url] }
      | .reqError => { s1 with visited_links := s1.visited_links ++ [url] }
      | .page text links =>
        let s2 :=
          if text ≠ "" then
            { s1 with corpus := s1.corpus ++ [text],
                      success_links := s1.success_links ++ [url] }
          else s1
        let s3 := { s2 with visited_links := s2.visited_links ++ [url] }
        links.foldl
          (fun t olink =>
            match olink with
            | none => t
            | some href =>
              if hasSub "csvtu.ac.in" href ∧ href ∉ t.visited_links then
                if endsWithPdf href then extract_text_from_pdf pnet href t
                else web_scraping_text net pnet fuel href t
              else t) s3
    else s

lemma char_ofNat_toNat {n : Nat} (h1 : 97 ≤ n) (h2 : n ≤ 122) : (Char.ofNat n).toNat = n := by
  have hv : n.isValidChar := Or.inl (by omega)
  rw [Char.ofNat, dif_pos hv]
  rfl

lemma pyToLower_not_upper (c : Char) : ¬(65 ≤ (pyToLower c).toNat ∧ (pyToLower c).toNat ≤ 90) := by
  unfold pyToLower
  by_cases h : 65 ≤ c.toNat ∧ c.toNat ≤ 90
  · rw [if_pos h]
    rw [char_ofNat_toNat (by omega) (by omega)]
    omega
  · rw [if_neg h]
    exact h

lemma mem_splitWordsAux :
    ∀ (l acc w : List Char), w ∈ splitWordsAux l acc → ∀ c ∈ w, c ∈ l ∨ c ∈ acc := by
  intro l
  induction l with
  | nil =>
    intro acc w hw c hc
    unfold splitWordsAux at hw
    by_cases ha : acc.isEmpty
    · rw [if_pos ha] at hw; simp at hw
    · rw [if_neg ha] at hw
      simp at hw
      subst hw
      right
      exact List.mem_reverse.mp hc
  | cons c0 cs ih =>
    intro acc w hw c hc
    unfold splitWordsAux at hw
    by_cases hs : isPySpace c0
    · rw [if_pos hs] at hw
      by_cases ha : acc.isEmpty
      · rw [if_pos ha] at hw
        rcases ih [] w hw c hc with h | h
        · exact Or.inl (List.mem_cons_of_mem _ h)
        · simp at h
      · rw [if_neg ha] at hw
        rcases List.mem_cons.mp hw with h | h
        · subst h
          exact Or.inr (List.mem_reverse.mp hc)
        · rcases ih [] w h c hc with h2 | h2
          · exact Or.inl (List.mem_cons_of_mem _ h2)
          · simp at h2
    · rw [if_neg hs] at hw
      rcases ih (c0 :: acc) w hw c hc with h | h
      · exact Or.inl (List.mem_cons_of_mem _ h)
      · rcases List.mem_cons.mp h with h2 | h2
        · subst h2; exact Or.inl (List.mem_cons_self _ _)
        · exact Or.inr h2

lemma not_mem_wordSet_of_upper {s : String} (input : String) {c : Char}
    (hc : c ∈ s.toList) (h1 : 65 ≤ c.toNat) (h2 : c.toNat ≤ 90) : s ∉ wordSet input := by
  intro hmem
  unfold wordSet pySplitWords at hmem
  rw [List.mem_toFinset, List.mem_map] at hmem
  obtain ⟨w, hw, hws⟩ := hmem
  have hwl : w = s.toList := by
    have := congrArg String.toList hws
    simpa using this
  subst hwl
  rcases mem_splitWordsAux _ _ _ hw c hc with h | h
  · have : (pyLower input).toList = input.toList.map pyToLower := rfl
    rw [this, List.mem_map] at h
    obtain ⟨c', _, hcc⟩ := h
    exact pyToLower_not_upper c' (by rw [hcc]; exact ⟨h1, h2⟩)
  · simp at h

lemma subjects_have_upper :
    ∀ p ∈ Semester_subject_names, ∀ subj ∈ p.2,
      subj.toList.any (fun c => 65 ≤ c.toNat && c.toNat ≤ 90) = true := by decide

lemma subject_any_false (input : String) {p : String × List String}
    (hp : p ∈ Semester_subject_names) :
    p.2.any (fun subj => decide (subj ∈ wordSet input)) = false := by
  rw [List.any_eq_false]
  intro subj hsubj
  simp only [decide_eq_true_eq]
  have := subjects_have_upper p hp subj hsubj
  rw [List.any_eq_true] at this
  obtain ⟨c, hc, hcu⟩ := this
  rw [Bool.and_eq_true, decide_eq_true_iff, decide_eq_true_iff] at hcu
  exact not_mem_wordSet_of_upper input hc hcu.1 hcu.2

lemma foldl_append_if_nil {α β : Type} (cond : α → Bool) (f : α → β) :
    ∀ (l : List α) (acc : List β), (∀ p ∈ l, cond p = false) →
      l.foldl (fun acc p => if cond p then acc ++ [f p] else acc) acc = acc := by
  intro l
  induction l with
  | nil => intro acc _; rfl
  | cons x xs ih =>
    intro acc h
    simp only [List.foldl_cons]
    rw [h x (List.mem_cons_self _ _), if_neg (by simp)]
    exact ih acc (fun p hp => h p (List.mem_cons_of_mem _ hp))

lemma check_for_syllabus_nil (input : String) : check_for_syllabus input = [] := by
  have hfold : Semester_subject_names.foldl
      (fun acc p =>
        if p.2.any (fun subj => decide (subj ∈ wordSet input)) then acc ++ [semFileName p.1]
        else acc) [] = [] :=
    foldl_append_if_nil _ _ _ _ (fun p hp => subject_any_false input hp)
  simp only [check_for_syllabus]
  rw [hfold]
  by_cases hs : "syllabus" ∈ wordSet input
  · rw [if_pos hs]
    simp
  · rw [if_neg hs]

lemma map_eq_self_of {α : Type} {f : α → α} :
    ∀ (l : List α), (∀ x ∈ l, f x = x) → l.map f = l := by
  intro l
  induction l with
  | nil => intro _; rfl
  | cons x xs ih =>
    intro h
    simp only [List.map_cons]
    rw [h x (List.mem_cons_self _ _), ih (fun y hy => h y (List.mem_cons_of_mem _ hy))]

lemma gbmStep_snd (scorer : String → String → Nat) (input : String)
    (st : List MatchT × DataSet) (p : String × Table) :
    (gbmStep scorer input st p).2 =
      st.2 ++ [if p.2.hasQA then (p.1, coerceTable p.2) else p] := by
  unfold gbmStep
  by_cases h : p.2.hasQA
  · rw [if_pos h, if_pos h]
  · rw [if_neg h, if_neg h]

lemma gbm_foldl_data (scorer : String → String → Nat) (input : String) :
    ∀ (l : DataSet) (st : List MatchT × DataSet),
      (l.foldl (gbmStep scorer input) st).2 =
        st.2 ++ l.map (fun p => if p.2.hasQA then (p.1, coerceTable p.2) else p) := by
  intro l
  induction l with
  | nil => intro st; simp
  | cons p ps ih =>
    intro st
    simp only [List.foldl_cons, List.map_cons]
    rw [ih, gbmStep_snd]
    simp

lemma wordSet_eq_of_pyLower_eq {s t : String} (h : pyLower s = pyLower t) :
    wordSet s = wordSet t := by
  unfold wordSet
  rw [h]

/-- Invariant relating a crawl state to a later one: visited URLs stay visited,
and no URL already visited at the earlier state gains a fetch-log entry. -/
def PreservesVisited (s t : CrawlState) : Prop :=
  (∀ u, u ∈ s.visited_links → u ∈ t.visited_links) ∧
  (∀ u, u ∈ s.visited_links → t.fetchLog.count u = s.fetchLog.count u)

lemma preservesVisited_refl (s : CrawlState) : PreservesVisited s s :=
  ⟨fun _ h => h, fun _ _ => rfl⟩

lemma preservesVisited_trans {s t r : CrawlState}
    (h1 : PreservesVisited s t) (h2 : PreservesVisited t r) : PreservesVisited s r :=
  ⟨fun u hu => h2.1 u (h1.1 u hu),
   fun u hu => (h2.2 u (h1.1 u hu)).trans (h1.2 u hu)⟩

lemma count_append_singleton_ne {u v : String} (h : u ≠ v) (l : List String) :
    (l ++ [v]).count u = l.count u := by
  have h0 : List.count u [v] = 0 := List.count_eq_zero.mpr (by simp [h])
  rw [List.count_append, h0, Nat.add_zero]

lemma preservesVisited_of {s t : CrawlState} {url : String} (hnv : url ∉ s.visited_links)
    (hvis : t.visited_links = s.visited_links ++ [url] ∨ t.visited_links = s.visited_links)
    (hlog : t.fetchLog = s.fetchLog ++ [url] ∨ t.fetchLog = s.fetchLog) :
    PreservesVisited s t := by
  constructor
  · intro u hu
    rcases hvis with h | h <;> rw [h]
    · exact List.mem_append_left _ hu
    · exact hu
  · intro u hu
    have hne : u ≠ url := fun he => hnv (he ▸ hu)
    rcases hlog with h | h
    · rw [h]; exact count_append_singleton_ne hne _
    · rw [h]

lemma extract_preserves (pnet : String → Option PdfResponse) (url : String) (s : CrawlState) :
    PreservesVisited s (extract_text_from_pdf pnet url s) := by
  unfold extract_text_from_pdf
  by_cases hv : url ∈ s.visited_links
  · rw [if_pos hv]; exact preservesVisited_refl s
  · rw [if_neg hv]
    dsimp only
    split
    · exact preservesVisited_of hv (Or.inl rfl) (Or.inl rfl)
    · split
      · exact preservesVisited_of hv (Or.inl rfl) (Or.inl rfl)
      · split
        · split
          · exact preservesVisited_of hv (Or.inl rfl) (Or.inl rfl)
          · exact preservesVisited_of hv (Or.inl rfl) (Or.inl rfl)
        · exact preservesVisited_of hv (Or.inr rfl) (Or.inl rfl)

lemma foldl_preservesVisited {α : Type} (step : CrawlState → α → CrawlState)
    (h : ∀ t l, PreservesVisited t (step t l)) :
    ∀ (ls : List α) (t : CrawlState), PreservesVisited t (ls.foldl step t) := by
  intro ls
  induction ls with
  | nil => intro t; exact preservesVisited_refl t
  | cons x xs ih =>
    intro t
    exact preservesVisited_trans (h t x) (ih (step t x))

lemma web_preserves (net : String → PageFetch) (pnet : String → Option PdfResponse) :
    ∀ (fuel : Nat) (url : String) (s : CrawlState),
      PreservesVisited s (web_scraping_text net pnet fuel url s) := by
  intro fuel
  induction fuel with
  | zero => intro url s; exact preservesVisited_refl s
  | succ fuel ih =>
    intro url s
    simp only [web_scraping_text]
    by_cases hg : url ∉ s.visited_links ∧ hasSub "csvtu.ac.in" url
    · rw [if_pos hg]
      split
      · exact preservesVisited_of hg.1 (Or.inl rfl) (Or.inl rfl)
      · exact preservesVisited_of hg.1 (Or.inl rfl) (Or.inl rfl)
      · refine preservesVisited_trans ?_ (foldl_preservesVisited _ ?_ _ _)
        · refine preservesVisited_of hg.1 (Or.inl ?_) (Or.inl ?_) <;> (split <;> rfl)
        · intro t olink
          cases olink with
          | none => exact preservesVisited_refl t
          | some href =>
            dsimp only
            by_cases hl : hasSub "csvtu.ac.in" href ∧ href ∉ t.visited_links
            · rw [if_pos hl]
              by_cases hpdf : endsWithPdf href
              · rw [if_pos hpdf]; exact extract_preserves pnet href t
              · rw [if_neg hpdf]; exact ih href t
            · rw [if_neg hl]; exact preservesVisited_refl t
    · rw [if_neg hg]; exact preservesVisited_refl s

lemma extract_fetchLog_cases (pnet : String → Option PdfResponse) (url : String) (s : CrawlState) :
    (extract_text_from_pdf pnet url s).fetchLog = s.fetchLog ∨
    (extract_text_from_pdf pnet url s).fetchLog = s.fetchLog ++ [url] := by
  unfold extract_text_from_pdf
  by_cases hv : url ∈ s.visited_links
  · rw [if_pos hv]; exact Or.inl rfl
  · rw [if_neg hv]
    dsimp only
    split
    · exact Or.inr rfl
    · split
      · exact Or.inr rfl
      · split
        · split
          · exact Or.inr rfl
          · exact Or.inr rfl
        · exact Or.inr rfl

lemma foldl_count_eq {α : Type} (step : CrawlState → α → CrawlState) (u : String)
    (h : ∀ t l, (step t l).fetchLog.count u = t.fetchLog.count u) :
    ∀ (ls : List α) (t : CrawlState), (ls.foldl step t).fetchLog.count u = t.fetchLog.count u := by
  intro ls
  induction ls with
  | nil => intro t; rfl
  | cons x xs ih =>
    intro t
    rw [List.foldl_cons, ih, h]

lemma web_offdomain_count (net : String → PageFetch) (pnet : String → Option PdfResponse)
    {u : String} (hu : hasSub "csvtu.ac.in" u = false) :
    ∀ (fuel : Nat) (url : String) (s : CrawlState),
      (web_scraping_text net pnet fuel url s).fetchLog.count u = s.fetchLog.count u := by
  intro fuel
  induction fuel with
  | zero => intro url s; rfl
  | succ fuel ih =>
    intro url s
    simp only [web_scraping_text]
    by_cases hg : url ∉ s.visited_links ∧ hasSub "csvtu.ac.in" url
    · rw [if_pos hg]
      have hne : u ≠ url := fun he => by
        rw [he, hg.2] at hu
        exact absurd hu (by simp)
      split
      · exact count_append_singleton_ne hne _
      · exact count_append_singleton_ne hne _
      · rw [foldl_count_eq]
        · split <;> exact count_append_singleton_ne hne _
        · intro t olink
          cases olink with
          | none => rfl
          | some href =>
            dsimp only
            by_cases hl : hasSub "csvtu.ac.in" href ∧ href ∉ t.visited_links
            · rw [if_pos hl]
              have hneh : u ≠ href := fun he => by
                rw [he, hl.1] at hu
                exact absurd hu (by simp)
              by_cases hpdf : endsWithPdf href
              · rw [if_pos hpdf]
                rcases extract_fetchLog_cases pnet href t with h | h
                · rw [h]
                · rw [h]; exact count_append_singleton_ne hneh _
              · rw [if_neg hpdf]; exact ih href t
            · rw [if_neg hl]
    · rw [if_neg hg]

lemma extract_exception_eq (pnet : String → Option PdfResponse) (url : String) (s : CrawlState)
    (hnv : url ∉ s.visited_links)
    (hexc : pnet url = none ∨
      (∃ r, pnet url = some r ∧ r.contentTypeHeader = none) ∨
      (∃ r ct, pnet url = some r ∧ r.contentTypeHeader = some ct ∧
        hasSub "application/pdf" ct = true ∧ r.pdfOk = false)) :
    extract_text_from_pdf pnet url s =
      { s with visited_links := s.visited_links ++ [url], fetchLog := s.fetchLog ++ [url] } := by
  unfold extract_text_from_pdf
  rw [if_neg hnv]
  dsimp only
  split
  · rfl
  · split
    · rfl
    · split
      · split
        · exfalso
          rcases hexc with h | ⟨r, hr, hh⟩ | ⟨r, ct, hr, hh, hct, hok⟩ <;> simp_all
        · rfl
      · exfalso
        rcases hexc with h | ⟨r, hr, hh⟩ | ⟨r, ct, hr, hh, hct, hok⟩ <;> simp_all

lemma web_request_exception_eq (net : String → PageFetch) (pnet : String → Option PdfResponse)
    (fuel : Nat) (url : String) (s : CrawlState)
    (hnv : url ∉ s.visited_links) (hmark : hasSub "csvtu.ac.in" url = true)
    (hexc : net url = PageFetch.timeout ∨ net url = PageFetch.reqError) :
    web_scraping_text net pnet (fuel + 1) url s =
      { s with visited_links := s.visited_links ++ [url], fetchLog := s.fetchLog ++ [url] } := by
  simp only [web_scraping_text]
  rw [if_pos ⟨hnv, hmark⟩]
  split
  · rfl
  · rfl
  · exfalso
    rcases hexc with h | h <;> simp_all

/-- C1 counterexample: at a URL whose response declares content type `text/html`
and raises no exception, `extract_text_from_pdf` does NOT mark the URL visited
(the visited list stays empty), contradicting the claim.  It does leave the
corpus untouched and raises nothing, as the claim also says. -/
theorem extract_nonpdf_not_marked_visited :
    (extract_text_from_pdf (fun _ => some ⟨some "text/html", true, []⟩)
        "https://csvtu.ac.in/a.pdf" ⟨[], [], [], [], []⟩).corpus = [] ∧
    "https://csvtu.ac.in/a.pdf" ∉
      (extract_text_from_pdf (fun _ => some ⟨some "text/html", true, []⟩)
        "https://csvtu.ac.in/a.pdf" ⟨[], [], [], [], []⟩).visited_links := by
  decide

/-- C1 (amended): for every unvisited URL whose response declares a non-PDF
content type and raises no exception, `extract_text_from_pdf` appends nothing to
the corpus, propagates no exception, and — contrary to the original claim — does
not mark the URL visited: apart from the ghost fetch log, the state is unchanged. -/
theorem extract_nonpdf_content_is_noop (pnet : String → Option PdfResponse) (url : String)
    (s : CrawlState) (r : PdfResponse) (ct : String)
    (hnv : url ∉ s.visited_links) (hr : pnet url = some r)
    (hh : r.contentTypeHeader = some ct) (hct : hasSub "application/pdf" ct = false) :
    extract_text_from_pdf pnet url s = { s with fetchLog := s.fetchLog ++ [url] } ∧
    url ∉ (extract_text_from_pdf pnet url s).visited_links := by
  have heq : extract_text_from_pdf pnet url s = { s with fetchLog := s.fetchLog ++ [url] } := by
    unfold extract_text_from_pdf
    rw [if_neg hnv]
    dsimp only
    split
    · exfalso; simp_all
    · split
      · exfalso; simp_all
      · split
        · exfalso; simp_all
        · rfl
  exact ⟨heq, by rw [heq]; exact hnv⟩

/-- Witness for C1's amended theorem at the `text/html` response of the counterexample. -/
theorem extract_nonpdf_content_is_noop_witness :
    extract_text_from_pdf (fun _ => some ⟨some "text/html", true, []⟩)
        "https://csvtu.ac.in/a.pdf" ⟨[], [], [], [], []⟩ =
      ⟨[], [], [], [], ["https://csvtu.ac.in/a.pdf"]⟩ :=
  (extract_nonpdf_content_is_noop _ _ _ _ "text/html" (by decide) rfl rfl (by decide)).1

/-- C2 counterexample: the fuzzy stage is not read-only.  On a table holding a
missing Question value, `get_best_matches` leaves the table changed (its
`astype(str)` coercion turns the missing value into the string "nan"). -/
theorem fuzzy_stage_mutates_missing_value_table :
    (get_best_matches (fun _ _ => 0) "q" [("t", ⟨true, [⟨Cell.na, Cell.str "a"⟩]⟩)] 3).2 ≠
      [("t", ⟨true, [⟨Cell.na, Cell.str "a"⟩]⟩)] := by
  decide

/-- C2 (amended): the common-word stage reads tables without modifying them (its
embedding `find_common_word_matches` consumes the data purely), and the fuzzy
stage leaves every table unchanged provided each searched table's Question and
Answer values are already strings; tables containing missing values are mutated
by its in-place `astype(str)` coercion, as the counterexample shows. -/
theorem fuzzy_stage_preserves_string_tables (scorer : String → String → Nat) (input : String)
    (data : DataSet) (top_n : Nat)
    (h : ∀ p ∈ data, p.2.hasQA = true →
      ∀ r ∈ p.2.rows, r.question.isString ∧ r.answer.isString) :
    (get_best_matches scorer input data top_n).2 = data := by
  unfold get_best_matches
  rw [gbm_foldl_data]
  rw [List.nil_append]
  apply map_eq_self_of
  intro p hp
  by_cases hq : p.2.hasQA
  · rw [if_pos hq]
    have : coerceTable p.2 = p.2 := by
      unfold coerceTable
      obtain ⟨nm, ⟨hqa, rows⟩⟩ := p
      simp only
      congr 1
      apply map_eq_self_of
      intro r hr
      have hh := h _ hp (by simpa using hq) r hr
      obtain ⟨rq, ra⟩ := r
      cases rq <;> cases ra <;> simp_all [Cell.isString, coerceRow, Cell.toStr]
    rw [this]
  · rw [if_neg hq]

/-- Witness for C2's amended theorem on an all-string table. -/
theorem fuzzy_stage_preserves_string_tables_witness :
    (∀ p ∈ ([("t", Table.mk true [⟨Cell.str "q1", Cell.str "a1"⟩])] : DataSet),
      p.2.hasQA = true → ∀ r ∈ p.2.rows, r.question.isString ∧ r.answer.isString) ∧
    (get_best_matches (fun _ _ => 5) "hi" [("t", ⟨true, [⟨Cell.str "q1", Cell.str "a1"⟩]⟩)] 3).2 =
      [("t", ⟨true, [⟨Cell.str "q1", Cell.str "a1"⟩]⟩)] :=
  ⟨by decide, fuzzy_stage_preserves_string_tables _ _ _ _ (by decide)⟩

/-- C3: whenever the common-word stage finds at least one match (and the input is
non-empty), `display_response` surfaces exactly the first at-most-3 common-word
matches in table/row enumeration order, unsorted, and the fuzzy stage never runs:
the result is the same for every fuzzy scorer and never consults it. -/
theorem common_word_stage_shortcircuits_fuzzy (scorer : String → String → Nat) (input : String)
    (data : DataSet) (path : String) (uni : Table)
    (hin : input ≠ "")
    (hcm : find_common_word_matches input (data.filter (fun p => p.1 ≠ path)) ≠ []) :
    display_response scorer input data path uni =
      Response.exact ((find_common_word_matches input (data.filter (fun p => p.1 ≠ path))).take 3) := by
  simp only [display_response, check_for_syllabus_nil]
  rw [if_neg (by simp), if_pos hin, if_pos hcm]

/-- Witness for C3 on a one-row table matched by the query "hello". -/
theorem common_word_stage_shortcircuits_fuzzy_witness :
    display_response (fun _ _ => 0) "hello"
        [("f", ⟨true, [⟨Cell.str "hello world", Cell.str "ans"⟩]⟩)] "path" ⟨false, []⟩ =
      Response.exact [("f", Cell.str "hello world", 100, Cell.str "ans")] :=
  (common_word_stage_shortcircuits_fuzzy (fun _ _ => 0) "hello"
      [("f", ⟨true, [⟨Cell.str "hello world", Cell.str "ans"⟩]⟩)] "path" ⟨false, []⟩
      (by decide) (by decide)).trans (by decide)

/-- C4: common-word scoring on a row of a table with both columns.  If the
query's word set is a subset of the union of the row's Question and Answer word
sets, the row is recorded with score 100; otherwise a non-empty overlap records
it with score 70; otherwise it yields no match.  In particular a query equal to
the Question after lowercasing falls in the subset case and scores 100. -/
theorem common_word_row_scoring (input name : String) (q a : Cell) :
    (wordSet input ⊆ cellWordSet q ∪ cellWordSet a →
      find_common_word_matches input [(name, ⟨true, [⟨q, a⟩]⟩)] = [(name, q, 100, a)]) ∧
    (¬ wordSet input ⊆ cellWordSet q ∪ cellWordSet a →
      (wordSet input ∩ (cellWordSet q ∪ cellWordSet a)).Nonempty →
      find_common_word_matches input [(name, ⟨true, [⟨q, a⟩]⟩)] = [(name, q, 70, a)]) ∧
    (¬ wordSet input ⊆ cellWordSet q ∪ cellWordSet a →
      ¬ (wordSet input ∩ (cellWordSet q ∪ cellWordSet a)).Nonempty →
      find_common_word_matches input [(name, ⟨true, [⟨q, a⟩]⟩)] = []) ∧
    (∀ qs, pyLower input = pyLower qs →
      find_common_word_matches input [(name, ⟨true, [⟨Cell.str qs, a⟩]⟩)] =
        [(name, Cell.str qs, 100, a)]) := by
  have hred : ∀ (r : Row), find_common_word_matches input [(name, ⟨true, [r]⟩)] =
      rowCommonMatches (wordSet input) name [r] := fun _ => rfl
  refine ⟨?_, ?_, ?_, ?_⟩
  · intro hsub
    rw [hred]
    unfold rowCommonMatches
    rw [if_pos hsub]
    rfl
  · intro hsub hinter
    rw [hred]
    unfold rowCommonMatches
    rw [if_neg hsub, if_pos hinter]
    rfl
  · intro hsub hinter
    rw [hred]
    unfold rowCommonMatches
    rw [if_neg hsub, if_neg hinter]
    rfl
  · intro qs hlow
    rw [hred]
    unfold rowCommonMatches
    rw [if_pos ?_]
    · rfl
    · have : wordSet input = wordSet qs := wordSet_eq_of_pyLower_eq hlow
      rw [this]
      exact Finset.subset_union_left.trans (by rfl)

/-- Witness for C4, scenario A: the query "database management system" against a
row whose Question is "Database Management System" scores 100. -/
theorem common_word_row_scoring_witness :
    find_common_word_matches "database management system"
        [("s3", ⟨true, [⟨Cell.str "Database Management System", Cell.str "AnswerText"⟩]⟩)] =
      [("s3", Cell.str "Database Management System", 100, Cell.str "AnswerText")] :=
  (common_word_row_scoring "database management system" "s3"
      (Cell.str "Database Management System") (Cell.str "AnswerText")).1 (by decide)

/-- C5: for every scorer, query, data set and `top_n`, the fuzzy stage returns at
most `top_n` candidates and their scores are non-increasing by position. -/
theorem fuzzy_stage_top_n_sorted (scorer : String → String → Nat) (input : String)
    (data : DataSet) (top_n : Nat) :
    (get_best_matches scorer input data top_n).1.length ≤ top_n ∧
    List.Pairwise (fun a b : MatchT => b.2.2.1 ≤ a.2.2.1)
      (get_best_matches scorer input data top_n).1 := by
  unfold get_best_matches
  constructor
  · rw [List.length_take]
    exact inf_le_left
  · apply List.Pairwise.sublist (List.take_sublist _ _)
    have hs := @List.sorted_mergeSort MatchT
      (fun a b : MatchT => decide (b.2.2.1 ≤ a.2.2.1))
      (fun a b c hab hbc => by
        rw [decide_eq_true_eq] at *
        omega)
      (fun a b => by
        rw [Bool.or_eq_true, decide_eq_true_eq, decide_eq_true_eq]
        omega)
      (List.foldl (gbmStep scorer input) ([], []) data).1
    exact hs.imp (fun h => by rwa [decide_eq_true_eq] at h)

/-- C6: a URL already in the visited list is never fetched again, neither by the
page crawler nor by the PDF extractor: its number of fetch-log occurrences is
unchanged by any further crawl from that state, for any fuel. -/
theorem visited_url_never_refetched (net : String → PageFetch)
    (pnet : String → Option PdfResponse) (fuel : Nat) (url u : String) (s : CrawlState)
    (hu : u ∈ s.visited_links) :
    (web_scraping_text net pnet fuel url s).fetchLog.count u = s.fetchLog.count u ∧
    (extract_text_from_pdf pnet url s).fetchLog.count u = s.fetchLog.count u :=
  ⟨(web_preserves net pnet fuel url s).2 u hu, (extract_preserves pnet url s).2 u hu⟩

/-- Witness for C6: a crawl that rediscovers an already-visited link never
re-fetches it. -/
theorem visited_url_never_refetched_witness :
    ("https://csvtu.ac.in/a" ∈
      (CrawlState.mk ["https://csvtu.ac.in/a"] [] [] [] []).visited_links) ∧
    ((web_scraping_text (fun _ => PageFetch.page "t" [some "https://csvtu.ac.in/a"])
          (fun _ => none) 2 "https://csvtu.ac.in/b"
          ⟨["https://csvtu.ac.in/a"], [], [], [], []⟩).fetchLog.count "https://csvtu.ac.in/a" =
        (CrawlState.mk ["https://csvtu.ac.in/a"] [] [] [] []).fetchLog.count
          "https://csvtu.ac.in/a" ∧
      (extract_text_from_pdf (fun _ => none) "https://csvtu.ac.in/b"
          ⟨["https://csvtu.ac.in/a"], [], [], [], []⟩).fetchLog.count "https://csvtu.ac.in/a" =
        (CrawlState.mk ["https://csvtu.ac.in/a"] [] [] [] []).fetchLog.count
          "https://csvtu.ac.in/a") :=
  ⟨by decide,
   visited_url_never_refetched (fun _ => PageFetch.page "t" [some "https://csvtu.ac.in/a"])
     (fun _ => none) 2 "https://csvtu.ac.in/b" "https://csvtu.ac.in/a"
     ⟨["https://csvtu.ac.in/a"], [], [], [], []⟩ (by decide)⟩

/-- C7: a URL that does not contain the domain marker "csvtu.ac.in" is never
fetched during a crawl, neither as a page nor as a PDF: starting a crawl from
any URL and state never adds it to the fetch log, for any fuel. -/
theorem offdomain_link_never_fetched (net : String → PageFetch)
    (pnet : String → Option PdfResponse) (fuel : Nat) (url : String) (s : CrawlState)
    (u : String) (hu : hasSub "csvtu.ac.in" u = false) :
    (web_scraping_text net pnet fuel url s).fetchLog.count u = s.fetchLog.count u :=
  web_offdomain_count net pnet hu fuel url s

/-- Witness for C7: a crawl that discovers an off-domain link never fetches it. -/
theorem offdomain_link_never_fetched_witness :
    hasSub "csvtu.ac.in" "https://example.com/x" = false ∧
    (web_scraping_text (fun _ => PageFetch.page "t" [some "https://example.com/x"])
        (fun _ => none) 3 "https://csvtu.ac.in/"
        ⟨[], [], [], [], []⟩).fetchLog.count "https://example.com/x" =
      (CrawlState.mk [] [] [] [] []).fetchLog.count "https://example.com/x" :=
  ⟨by decide,
   offdomain_link_never_fetched (fun _ => PageFetch.page "t" [some "https://example.com/x"])
     (fun _ => none) 3 "https://csvtu.ac.in/" ⟨[], [], [], [], []⟩
     "https://example.com/x" (by decide)⟩

/-- C8: crawler failure semantics.  Any exception inside PDF extraction (request
failure, missing content-type header, or a PyPDF2 parse failure at a PDF content
type) and any request exception during a page fetch leave the state unchanged
except that the offending URL is appended to the visited list (and to the ghost
fetch log); no exception propagates (both functions are total) and the caller's
link loop continues from the returned state. -/
theorem crawler_failures_mark_visited_and_continue :
    (∀ (pnet : String → Option PdfResponse) (url : String) (s : CrawlState),
      url ∉ s.visited_links →
      (pnet url = none ∨
        (∃ r, pnet url = some r ∧ r.contentTypeHeader = none) ∨
        (∃ r ct, pnet url = some r ∧ r.contentTypeHeader = some ct ∧
          hasSub "application/pdf" ct = true ∧ r.pdfOk = false)) →
      extract_text_from_pdf pnet url s =
        { s with visited_links := s.visited_links ++ [url],
                 fetchLog := s.fetchLog ++ [url] }) ∧
    (∀ (net : String → PageFetch) (pnet : String → Option PdfResponse) (fuel : Nat)
        (url : String) (s : CrawlState),
      url ∉ s.visited_links → hasSub "csvtu.ac.in" url = true →
      (net url = PageFetch.timeout ∨ net url = PageFetch.reqError) →
      web_scraping_text net pnet (fuel + 1) url s =
        { s with visited_links := s.visited_links ++ [url],
                 fetchLog := s.fetchLog ++ [url] }) :=
  ⟨fun pnet url s hnv hexc => extract_exception_eq pnet url s hnv hexc,
   fun net pnet fuel url s hnv hmark hexc =>
     web_request_exception_eq net pnet fuel url s hnv hmark hexc⟩

/-- Witness for C8: a failing PDF request and a page timeout each mark the URL
visited and nothing else. -/
theorem crawler_failures_mark_visited_and_continue_witness :
    extract_text_from_pdf (fun _ => none) "https://csvtu.ac.in/x.pdf" ⟨[], [], [], [], []⟩ =
      ⟨["https://csvtu.ac.in/x.pdf"], [], [], [], ["https://csvtu.ac.in/x.pdf"]⟩ ∧
    web_scraping_text (fun _ => PageFetch.timeout) (fun _ => none) 1 "https://csvtu.ac.in/"
        ⟨[], [], [], [], []⟩ =
      ⟨["https://csvtu.ac.in/"], [], [], [], ["https://csvtu.ac.in/"]⟩ :=
  ⟨crawler_failures_mark_visited_and_continue.1 (fun _ => none) "https://csvtu.ac.in/x.pdf"
     ⟨[], [], [], [], []⟩ (by decide) (Or.inl rfl),
   crawler_failures_mark_visited_and_continue.2 (fun _ => PageFetch.timeout) (fun _ => none) 0
     "https://csvtu.ac.in/" ⟨[], [], [], [], []⟩ (by decide) (by decide) (Or.inl rfl)⟩

/-- C9: a query whose lowercase token set contains the literal word "syllabus"
but matches no subject name returns an empty syllabus list (the bare-syllabus
branch filters against the not-yet-populated list). -/
theorem bare_syllabus_query_returns_empty (input : String)
    (h1 : "syllabus" ∈ wordSet input)
    (h2 : ∀ p ∈ Semester_subject_names, ∀ subj ∈ p.2, subj ∉ wordSet input) :
    check_for_syllabus input = [] :=
  check_for_syllabus_nil input

/-- Witness for C9 at the bare query "syllabus". -/
theorem bare_syllabus_query_returns_empty_witness :
    ("syllabus" ∈ wordSet "syllabus") ∧ check_for_syllabus "syllabus" = [] :=
  ⟨by decide, bare_syllabus_query_returns_empty "syllabus" (by decide) (by decide)⟩

/-- C10: `check_for_syllabus` returns the empty list on every input: query tokens
are lowercased while every subject name contains an upper-case character, so the
subject-match branch never fires, and the "syllabus" branch then filters against
the empty list. -/
theorem check_for_syllabus_always_empty (input : String) : check_for_syllabus input = [] :=
  check_for_syllabus_nil input
